import Mathlib

/-!  Verification of the hybrid storage tiering engine of `cloud-store`.

The definitions below are a shallow embedding of the Python source:

* `src/backend/app/models.py`      — the `File` record (`FileRecord` here),
* `src/backend/app/storage.py`     — `MinIOClient`, `S3Client`, `StorageService`,
* `src/backend/app/routers/file_router.py` — `upload_file` and `compute_file_hash`,
* `src/backend/app/sync_job.py`    — `process_file_batch` and `main` (`runSync` here).

External effects are made explicit: the two object stores are association
lists from object key to byte content, the database is a list of records,
and transport / commit failures are injected through explicit fault
oracles (`ItemFaults`), mirroring exactly where the Python code can raise.
The SHA-256 digest is kept abstract as a function parameter `hashFn`:
every claim below only needs that it is a function of the byte content.
Timestamps are abstract `Nat` values supplied by the caller (`now`), and
the fresh UUID for an upload is supplied as the string parameter `uniq`.
-/

namespace CloudStore

/-- Byte content of a file: a list of byte values. -/
abbrev Bytes := List Nat

/-- An object store (one bucket): an association list from object key to
stored byte content.  Models the contents of the MinIO bucket and of the
S3 bucket. -/
abbrev ObjStore := List (String × Bytes)

/-- Look an object up by key (model of a GET against a bucket). -/
def storeLookup (store : ObjStore) (key : String) : Option Bytes :=
  (store.find? (fun kv => kv.1 == key)).map Prod.snd

/-- Store an object under a key (model of a PUT against a bucket). -/
def storePut (store : ObjStore) (key : String) (content : Bytes) : ObjStore :=
  (key, content) :: store

/-- Remove an object (model of a DELETE against a bucket). -/
def storeDelete (store : ObjStore) (key : String) : ObjStore :=
  store.filter (fun kv => kv.1 != key)

/-- The `files` table row of `src/backend/app/models.py` (class `File`),
restricted to the columns the tiering engine reads or writes.
`content_hash` is nullable (pre-hash legacy records), `synced_at` is
nullable and `storage_location` is the tier tag: `"minio"` (fast tier)
or `"s3"` (durable tier). -/
structure FileRecord where
  id : Nat
  user_id : Nat
  filename : String
  original_filename : String
  file_size : Nat
  content_type : String
  content_hash : Option String
  storage_location : String
  object_key : String
  access_url : String
  synced_at : Option Nat
deriving DecidableEq, Repr

/-- The persistent state the engine acts on: the `files` table plus the
contents of the two buckets. -/
structure SysState where
  records : List FileRecord
  minioStore : ObjStore
  s3Store : ObjStore
deriving DecidableEq, Repr

/-! ## Object keys and locators (`src/backend/app/storage.py`) -/

/-- `MinIOClient.upload_to_minio`: `object_key = f"user-{user_id}/{unique_filename}"`. -/
def minioObjectKey (user_id : Nat) (unique_filename : String) : String :=
  "user-" ++ toString user_id ++ "/" ++ unique_filename

/-- `S3Client.upload_to_s3`: `object_key = f"user-{user_id}/{filename}"`
(the comment in the source: "Use same path structure as MinIO"). -/
def s3ObjectKey (user_id : Nat) (filename : String) : String :=
  "user-" ++ toString user_id ++ "/" ++ filename

/-- Model of `object_key.split('/')[-1]` on the character list: the suffix
after the last `'/'` (the whole string when it has no `'/'`). -/
def lastSegAux (acc : List Char) : List Char → List Char
  | [] => acc
  | c :: cs => if c = '/' then lastSegAux [] cs else lastSegAux (acc ++ [c]) cs

/-- `object_key.split('/')[-1]` as used by `StorageService.transfer_file_to_s3`
and by `upload_file` to extract the unique filename component. -/
def lastSegment (s : String) : String :=
  String.mk (lastSegAux [] s.data)

/-- The S3 bucket name (`S3_BUCKET` environment value, kept abstract as a
fixed string). -/
def s3Bucket : String := "s3-bucket"

/-- The AWS region (`AWS_REGION` environment value, default in the source
`"us-east-1"`). -/
def s3Region : String := "us-east-1"

/-- `S3Client.get_s3_public_url`: the stable URL
`https://{bucket}.s3.{region}.amazonaws.com/{object_key}`. -/
def get_s3_public_url (object_key : String) : String :=
  "https://" ++ s3Bucket ++ ".s3." ++ s3Region ++ ".amazonaws.com/" ++ object_key

/-- `MinIOClient.get_minio_presigned_url`: abstracts the MinIO SDK's signed
URL, which is a deterministic function of the object key (with a fresh
time-limited signature; the signature part is irrelevant to every claim). -/
def get_minio_presigned_url (object_key : String) : String :=
  "http://localhost:9000/local-files/" ++ object_key ++ "?signed"

/-! ## Fault oracles

The Python code can fail at four distinct points while syncing one file:
the MinIO GET (`S3Error` in `get_file_from_minio`), each S3 PUT attempt
(`ClientError` in `upload_to_s3`), the database commit
(`session.commit()` in `process_file_batch`), and the optional MinIO
DELETE (`S3Error` in `delete_from_minio`).  An `ItemFaults` value decides
which of these raise for one processed item; `s3Faults n` decides whether
the `n`-th PUT attempt (0-based) raises. -/
structure ItemFaults where
  fetchFault : Bool
  s3Faults : Nat → Bool
  commitFault : Bool
  cleanupFault : Bool

/-- The fault oracle of a fully healthy run: nothing raises. -/
def noFaults : ItemFaults :=
  { fetchFault := false, s3Faults := fun _ => false,
    commitFault := false, cleanupFault := false }

/-- A fault oracle whose MinIO GET raises (a transport fault while
fetching the source object). -/
def fetchFaulty : ItemFaults :=
  { fetchFault := true, s3Faults := fun _ => false,
    commitFault := false, cleanupFault := false }

/-- A fault oracle whose every S3 PUT attempt raises `ClientError`. -/
def s3Faulty : ItemFaults :=
  { fetchFault := false, s3Faults := fun _ => true,
    commitFault := false, cleanupFault := false }

/-- A fault oracle whose database commit raises after a successful
durable write (the `CommitPersistenceError` situation of the spec). -/
def commitFaulty : ItemFaults :=
  { fetchFault := false, s3Faults := fun _ => false,
    commitFault := true, cleanupFault := false }

/-- A fault oracle whose only fault is the optional MinIO cleanup delete. -/
def cleanupFaulty : ItemFaults :=
  { fetchFault := false, s3Faults := fun _ => false,
    commitFault := false, cleanupFault := true }

/-! ## Storage operations with faults (`src/backend/app/storage.py`) -/

/-- `MinIOClient.get_file_from_minio`: returns the stored bytes, raising
(as an `error` value) on a transport fault or a missing key. -/
def get_file_from_minio (fetchFault : Bool) (store : ObjStore) (key : String) :
    Except String Bytes :=
  if fetchFault then Except.error "Failed to retrieve file from MinIO: S3Error"
  else
    match storeLookup store key with
    | some content => Except.ok content
    | none => Except.error "Failed to retrieve file from MinIO: NoSuchKey"

/-- The retry loop of `S3Client.upload_to_s3`
(`for attempt in range(max_retries)`), started at `attempt` with
`remaining` iterations left.  Returns the result together with the number
of PUT attempts actually made.  A failed attempt on the last iteration
re-raises (`if attempt == max_retries - 1: raise`), surfaced by the outer
handler as `Failed to upload to S3: ...`. -/
def s3PutLoop (s3Faults : Nat → Bool) (object_key : String) :
    Nat → Nat → Except String String × Nat
  | _, 0 => (Except.error "Failed to upload to S3: no attempts", 0)
  | attempt, remaining + 1 =>
    if s3Faults attempt then
      if remaining = 0 then (Except.error "Failed to upload to S3: ClientError", 1)
      else
        let r := s3PutLoop s3Faults object_key (attempt + 1) remaining
        (r.1, r.2 + 1)
    else (Except.ok object_key, 1)

/-- `max_retries = 3` in `S3Client.upload_to_s3`. -/
def max_retries : Nat := 3

/-- `S3Client.upload_to_s3`: PUT with bounded retry; on success the object
is stored in the S3 bucket and the S3 object key is returned.  The second
component of the result is the new S3 bucket contents, the third the
number of PUT attempts made. -/
def upload_to_s3 (s3Faults : Nat → Bool) (s3Store : ObjStore) (user_id : Nat)
    (filename : String) (content : Bytes) : Except String String × ObjStore × Nat :=
  let r := s3PutLoop s3Faults (s3ObjectKey user_id filename) 0 max_retries
  match r.1 with
  | Except.ok key => (Except.ok key, storePut s3Store key content, r.2)
  | Except.error e => (Except.error e, s3Store, r.2)

/-- `MinIOClient.delete_from_minio`: returns `False` on an `S3Error`
instead of raising; on success the object is removed. -/
def delete_from_minio (cleanupFault : Bool) (store : ObjStore) (key : String) :
    Bool × ObjStore :=
  if cleanupFault then (false, store) else (true, storeDelete store key)

/-- `StorageService.transfer_file_to_s3`: GET from MinIO, PUT to S3 under
`user-{user_id}/{last segment of the MinIO key}`, return the S3 public
URL.  The second component is the new S3 bucket contents (unchanged when
the transfer raises before a successful PUT). -/
def transfer_file_to_s3 (flt : ItemFaults) (minioStore s3Store : ObjStore)
    (object_key : String) (user_id : Nat) : Except String String × ObjStore :=
  match get_file_from_minio flt.fetchFault minioStore object_key with
  | Except.error e => (Except.error e, s3Store)
  | Except.ok content =>
    let filename := lastSegment object_key
    match upload_to_s3 flt.s3Faults s3Store user_id filename content with
    | (Except.error e, s3', _) => (Except.error e, s3')
    | (Except.ok s3_key, s3', _) => (Except.ok (get_s3_public_url s3_key), s3')

/-! ## The upload path (`src/backend/app/routers/file_router.py`) -/

/-- `MAX_FILE_SIZE_BYTES = 100 * 1024 * 1024` (default `MAX_FILE_SIZE_MB = 100`). -/
def MAX_FILE_SIZE_BYTES : Nat := 100 * 1024 * 1024

/-- The duplicate lookup of `upload_file`:
`db.query(File).filter(File.user_id == current_user.id, File.content_hash == content_hash).first()`.
SQL equality against the non-null `content_hash` never matches a row whose
`content_hash` is NULL, which the model renders as `f.content_hash == some h`. -/
def findDuplicate (records : List FileRecord) (user_id : Nat) (h : String) :
    Option FileRecord :=
  records.find? (fun f => f.user_id == user_id && f.content_hash == some h)

/-- The next autoincrement primary key of the `files` table. -/
def nextId (records : List FileRecord) : Nat :=
  (records.map FileRecord.id).foldr max 0 + 1

/-- The three ways `upload_file` answers: an HTTP error (status, detail),
a `DuplicateFileResponse` referencing the existing record, or a
`FileUploadResponse` for a newly created record. -/
inductive UploadResult where
  | error (status : Nat) (detail : String)
  | duplicate (existing : FileRecord)
  | created (newRecord : FileRecord)
deriving DecidableEq, Repr

/-- The `File(...)` row `upload_file` inserts on the no-duplicate path:
`filename` is the unique filename extracted back out of the object key
(`object_key.split('/')[-1]`), `content_hash` is set, the record starts
on the fast tier (`storage_location="minio"`) and `synced_at` is NULL. -/
def uploadRecord (hashFn : Bytes → String) (uniq : String) (st : SysState)
    (user_id : Nat) (fname : String) (content : Bytes)
    (content_type : String) : FileRecord :=
  { id := nextId st.records
    user_id := user_id
    filename := lastSegment (minioObjectKey user_id (uniq ++ "-" ++ fname))
    original_filename := fname
    file_size := content.length
    content_type := content_type
    content_hash := some (hashFn content)
    storage_location := "minio"
    object_key := minioObjectKey user_id (uniq ++ "-" ++ fname)
    access_url := get_minio_presigned_url (minioObjectKey user_id (uniq ++ "-" ++ fname))
    synced_at := none }

/-- `upload_file` of `src/backend/app/routers/file_router.py`.
`hashFn` abstracts `compute_file_hash` (the SHA-256 hex digest as a
function of the byte content), `uniq` is the fresh `uuid.uuid4()` string,
and `minioFault` decides whether the MinIO PUT raises (surfaced as HTTP
503).  Returns the response and the new persistent state. -/
def upload_file (hashFn : Bytes → String) (uniq : String) (minioFault : Bool)
    (st : SysState) (user_id : Nat) (fname : String) (content : Bytes)
    (content_type : String) : UploadResult × SysState :=
  if MAX_FILE_SIZE_BYTES < content.length then
    (UploadResult.error 400 "File size exceeds maximum allowed size", st)
  else if content.length = 0 then
    (UploadResult.error 400 "File is empty", st)
  else
    match findDuplicate st.records user_id (hashFn content) with
    | some existing => (UploadResult.duplicate existing, st)
    | none =>
      if minioFault then
        (UploadResult.error 503 "Storage service unavailable. Please try again later.", st)
      else
        (UploadResult.created (uploadRecord hashFn uniq st user_id fname content content_type),
         { records := st.records ++ [uploadRecord hashFn uniq st user_id fname content content_type]
           minioStore := storePut st.minioStore
             (uploadRecord hashFn uniq st user_id fname content content_type).object_key content
           s3Store := st.s3Store })

/-! ## The sync job (`src/backend/app/sync_job.py`) -/

/-- The per-item outcome inside `process_file_batch`: the item either
reaches the committed state or raises, with the logged error message. -/
inductive ItemOutcome where
  | success
  | failure (msg : String)
deriving DecidableEq, Repr

/-- The in-memory mutation of one row in `process_file_batch`:
`file.storage_location = "s3"; file.access_url = s3_url; file.synced_at = now`
(rows other than the processed one are untouched). -/
def commitRecordUpdate (fid : Nat) (s3_url : String) (now : Nat)
    (r : FileRecord) : FileRecord :=
  if r.id = fid then
    { r with storage_location := "s3", access_url := s3_url, synced_at := some now }
  else r

/-- The record update of `process_file_batch` followed by
`session.commit()`: `storage_location = "s3"`, `access_url = s3_url` and
`synced_at = now` are persisted in one transaction. -/
def commitFileUpdate (records : List FileRecord) (fid : Nat) (s3_url : String)
    (now : Nat) : List FileRecord :=
  records.map (commitRecordUpdate fid s3_url now)

/-- One iteration of the `for file in files` loop of `process_file_batch`:
transfer the object, commit the record update, optionally delete the
MinIO copy.  A raised exception anywhere before a successful commit rolls
the session back (`session.rollback()`), leaving the record unchanged; a
cleanup failure is caught and only logged. -/
def processFile (deleteAfterSync : Bool) (flt : ItemFaults) (now : Nat)
    (st : SysState) (file : FileRecord) : SysState × ItemOutcome :=
  match transfer_file_to_s3 flt st.minioStore st.s3Store file.object_key file.user_id with
  | (Except.error e, s3') =>
    ({ st with s3Store := s3' },
     ItemOutcome.failure ("Failed to sync file " ++ toString file.id ++ ": " ++ e))
  | (Except.ok s3_url, s3') =>
    if flt.commitFault then
      ({ st with s3Store := s3' },
       ItemOutcome.failure ("Failed to sync file " ++ toString file.id ++ ": commit failed"))
    else
      let records' := commitFileUpdate st.records file.id s3_url now
      if deleteAfterSync then
        let d := delete_from_minio flt.cleanupFault st.minioStore file.object_key
        ({ records := records', minioStore := d.2, s3Store := s3' }, ItemOutcome.success)
      else
        ({ records := records', minioStore := st.minioStore, s3Store := s3' },
         ItemOutcome.success)

/-- The statistics dictionary of `process_file_batch` and `main`. -/
structure BatchStats where
  processed : Nat
  succeeded : Nat
  failed : Nat
  errors : List String
deriving DecidableEq, Repr

/-- The all-zero statistics both functions start from. -/
def emptyStats : BatchStats := { processed := 0, succeeded := 0, failed := 0, errors := [] }

/-- The statistics aggregation of `main` (`total_stats[...] += batch_stats[...]`,
`total_stats["errors"].extend(...)`). -/
def addStats (a b : BatchStats) : BatchStats :=
  { processed := a.processed + b.processed
    succeeded := a.succeeded + b.succeeded
    failed := a.failed + b.failed
    errors := a.errors ++ b.errors }

/-- The body of the `for file in files` loop of `process_file_batch`:
`processed += 1`, then on success `succeeded += 1`, on an exception
`failed += 1` and the error message is appended. -/
def batchStep (deleteAfterSync : Bool) (flt : Nat → ItemFaults) (now : Nat)
    (acc : BatchStats × SysState) (file : FileRecord) : BatchStats × SysState :=
  let stats1 := { acc.1 with processed := acc.1.processed + 1 }
  match processFile deleteAfterSync (flt file.id) now acc.2 file with
  | (st', ItemOutcome.success) =>
    ({ stats1 with succeeded := stats1.succeeded + 1 }, st')
  | (st', ItemOutcome.failure e) =>
    ({ stats1 with failed := stats1.failed + 1, errors := stats1.errors ++ [e] }, st')

/-- `process_file_batch(files, session)`: process the items of one batch
independently, starting from all-zero statistics.  The fault oracle is
keyed by the record id. -/
def process_file_batch (deleteAfterSync : Bool) (flt : Nat → ItemFaults) (now : Nat)
    (files : List FileRecord) (st : SysState) : BatchStats × SysState :=
  files.foldl (batchStep deleteAfterSync flt now) (emptyStats, st)

/-- The eligibility query of `main`:
`session.query(File).filter(File.storage_location == "minio").all()`. -/
def eligibleFiles (records : List FileRecord) : List FileRecord :=
  records.filter (fun f => f.storage_location == "minio")

/-- The batch partition of `main` (`files_to_sync[i:i + SYNC_BATCH_SIZE]`):
consecutive chunks of `n + 1` records. -/
def toBatches (n : Nat) : List FileRecord → List (List FileRecord)
  | [] => []
  | x :: xs => (x :: List.take n xs) :: toBatches n (List.drop n xs)
termination_by l => l.length
decreasing_by simp; omega

/-- `main()` of `src/backend/app/sync_job.py`: select the records still on
MinIO, return immediately when there are none, otherwise process them in
batches of `batchSize` and aggregate the statistics.  (`batchSize` is
`SYNC_BATCH_SIZE`, `deleteAfterSync` is `DELETE_FROM_MINIO_AFTER_SYNC`.) -/
def runSync (batchSize : Nat) (deleteAfterSync : Bool) (flt : Nat → ItemFaults)
    (now : Nat) (st : SysState) : BatchStats × SysState :=
  let files_to_sync := eligibleFiles st.records
  if files_to_sync.length = 0 then (emptyStats, st)
  else
    (toBatches (batchSize - 1) files_to_sync).foldl
      (fun acc batch =>
        (addStats acc.1 (process_file_batch deleteAfterSync flt now batch acc.2).1,
         (process_file_batch deleteAfterSync flt now batch acc.2).2))
      (emptyStats, st)

/-! ## Derived per-item notions used in the statements -/

/-- Whether one item makes it through the whole pipeline: the MinIO GET
does not fault, the source object is present, some of the three S3 PUT
attempts succeeds, and the commit does not fault.  (The cleanup fault
plays no role: it cannot fail the item.) -/
def itemSucceedsB (flt : ItemFaults) (minioStore : ObjStore) (f : FileRecord) : Bool :=
  !flt.fetchFault && (storeLookup minioStore f.object_key).isSome &&
    !(flt.s3Faults 0 && flt.s3Faults 1 && flt.s3Faults 2) && !flt.commitFault

/-- The outcome of one item as a function of its fault oracle, the MinIO
bucket contents and the record (the projection of `processFile` onto its
`ItemOutcome` component). -/
def itemOutcome (flt : ItemFaults) (minioStore : ObjStore) (f : FileRecord) : ItemOutcome :=
  match get_file_from_minio flt.fetchFault minioStore f.object_key with
  | Except.error e => ItemOutcome.failure ("Failed to sync file " ++ toString f.id ++ ": " ++ e)
  | Except.ok _ =>
    match (s3PutLoop flt.s3Faults (s3ObjectKey f.user_id (lastSegment f.object_key)) 0 max_retries).1 with
    | Except.error e => ItemOutcome.failure ("Failed to sync file " ++ toString f.id ++ ": " ++ e)
    | Except.ok _ =>
      if flt.commitFault then
        ItemOutcome.failure ("Failed to sync file " ++ toString f.id ++ ": commit failed")
      else ItemOutcome.success

/-- The error message recorded for a failed item. -/
def itemMsg (flt : ItemFaults) (minioStore : ObjStore) (f : FileRecord) : String :=
  match itemOutcome flt minioStore f with
  | ItemOutcome.failure e => e
  | ItemOutcome.success => ""

/-- The record-level invariant of the spec: `synced_at` is set if and only
if the record sits on the durable tier. -/
def syncedIffDurable (r : FileRecord) : Prop :=
  r.synced_at.isSome = true ↔ r.storage_location = "s3"

instance (r : FileRecord) : Decidable (syncedIffDurable r) :=
  decidable_of_iff (r.synced_at.isSome = true ↔ r.storage_location = "s3") Iff.rfl

/-- How one sync step may change one record: not at all, or to the
committed durable form (same id, tier `"s3"`, `synced_at` set). -/
def SyncStepRel (a b : FileRecord) : Prop :=
  b.id = a.id ∧
    (b = a ∨ (b.storage_location = "s3" ∧ b.synced_at.isSome = true))

/-- The object key of the record `upload_file` creates, `none` for the
other two kinds of response. -/
def createdKey : UploadResult → Option String
  | UploadResult.created r => some r.object_key
  | _ => none

/-- The object key convention exactly as the spec words it
(section 6, External interfaces): `owner-{ownerId}/{uuid}-{originalFilename}`.
Stated from the spec's words for comparison against the key the source
actually builds. -/
def specObjectKeyConvention (ownerId : Nat) (uniq original_filename : String) : String :=
  "owner-" ++ toString ownerId ++ "/" ++ uniq ++ "-" ++ original_filename

/-- A concrete pre-hash legacy record used by the claim C10 witness. -/
def legacyDemoRecord : FileRecord :=
  { id := 1, user_id := 1, filename := "u9-old.txt", original_filename := "old.txt"
    file_size := 1, content_type := "t", content_hash := none
    storage_location := "minio", object_key := "user-1/u9-old.txt"
    access_url := "http://localhost:9000/local-files/user-1/u9-old.txt?signed"
    synced_at := none }

/-- A concrete fast-tier record used by the witnesses of the sync-side
claims. -/
def demoFile (i : Nat) : FileRecord :=
  { id := i, user_id := 1, filename := "u" ++ toString i ++ "-f.txt"
    original_filename := "f.txt", file_size := 1, content_type := "t"
    content_hash := some ("h" ++ toString i), storage_location := "minio"
    object_key := "user-1/u" ++ toString i ++ "-f.txt"
    access_url := "http://localhost:9000/local-files/user-1/u" ++ toString i ++ "-f.txt?signed"
    synced_at := none }

/-- A concrete state holding three fast-tier records together with their
stored objects, used by the witnesses of the sync-side claims. -/
def demoState : SysState :=
  { records := [demoFile 1, demoFile 2, demoFile 3]
    minioStore := [((demoFile 1).object_key, [1]), ((demoFile 2).object_key, [2]),
      ((demoFile 3).object_key, [3])]
    s3Store := [] }

/-- A fault assignment where only the record with id 2 fails (its MinIO
GET raises). -/
def demoFaults : Nat → ItemFaults := fun i => if i = 2 then fetchFaulty else noFaults

/-! ## Lemmas about the S3 retry loop -/

lemma s3PutLoop_first_ok (g : Nat → Bool) (key : String) (h0 : g 0 = false) :
    s3PutLoop g key 0 3 = (Except.ok key, 1) := by
  simp [s3PutLoop, h0]

lemma s3PutLoop_second_ok (g : Nat → Bool) (key : String)
    (h0 : g 0 = true) (h1 : g 1 = false) :
    s3PutLoop g key 0 3 = (Except.ok key, 2) := by
  simp [s3PutLoop, h0, h1]

lemma s3PutLoop_third_ok (g : Nat → Bool) (key : String)
    (h0 : g 0 = true) (h1 : g 1 = true) (h2 : g 2 = false) :
    s3PutLoop g key 0 3 = (Except.ok key, 3) := by
  simp [s3PutLoop, h0, h1, h2]

lemma s3PutLoop_all_fail (g : Nat → Bool) (key : String)
    (h0 : g 0 = true) (h1 : g 1 = true) (h2 : g 2 = true) :
    s3PutLoop g key 0 3 = (Except.error "Failed to upload to S3: ClientError", 3) := by
  simp [s3PutLoop, h0, h1, h2]

lemma s3PutLoop_attempts_le (g : Nat → Bool) (key : String) :
    (s3PutLoop g key 0 3).2 ≤ 3 := by
  cases h0 : g 0
  · rw [s3PutLoop_first_ok g key h0]; norm_num
  · cases h1 : g 1
    · rw [s3PutLoop_second_ok g key h0 h1]; norm_num
    · cases h2 : g 2
      · rw [s3PutLoop_third_ok g key h0 h1 h2]
      · rw [s3PutLoop_all_fail g key h0 h1 h2]

lemma s3PutLoop_ok_iff (g : Nat → Bool) (key : String) :
    (s3PutLoop g key 0 3).1 = Except.ok key ↔
      ¬(g 0 = true ∧ g 1 = true ∧ g 2 = true) := by
  cases h0 : g 0
  · rw [s3PutLoop_first_ok g key h0]; simp [h0]
  · cases h1 : g 1
    · rw [s3PutLoop_second_ok g key h0 h1]; simp [h1]
    · cases h2 : g 2
      · rw [s3PutLoop_third_ok g key h0 h1 h2]; simp [h2]
      · rw [s3PutLoop_all_fail g key h0 h1 h2]; simp [h0, h1, h2]

/-! ## Lemmas about the last path segment -/

lemma lastSegAux_no_slash (l : List Char) :
    ∀ acc, (∀ c ∈ l, c ≠ '/') → lastSegAux acc l = acc ++ l := by
  induction l with
  | nil => intro acc _; simp [lastSegAux]
  | cons c cs ih =>
    intro acc h
    have hc : c ≠ '/' := h c (List.mem_cons_self c cs)
    simp only [lastSegAux, if_neg hc]
    rw [ih (acc ++ [c]) (fun d hd => h d (List.mem_cons_of_mem c hd))]
    simp

lemma lastSegAux_append_slash (l1 l2 : List Char) :
    ∀ acc, lastSegAux acc (l1 ++ '/' :: l2) = lastSegAux [] l2 := by
  induction l1 with
  | nil => intro acc; simp [lastSegAux]
  | cons c cs ih =>
    intro acc
    by_cases hc : c = '/'
    · subst hc; simp only [List.cons_append, lastSegAux, if_pos rfl]; exact ih _
    · simp only [List.cons_append, lastSegAux, if_neg hc]; exact ih _

lemma lastSegment_append (p x : String) (hx : ∀ c ∈ x.data, c ≠ '/') :
    lastSegment (p ++ "/" ++ x) = x := by
  have hdata : (p ++ "/" ++ x).data = p.data ++ '/' :: x.data := by
    simp [String.data_append]
  rw [lastSegment, hdata, lastSegAux_append_slash p.data x.data [],
    lastSegAux_no_slash x.data [] hx]
  cases x; rfl

/-! ## Claim C7 -/

/-- Claim C7: the durable-tier put (`S3Client.upload_to_s3`) retries on
transient faults with a bounded attempt count of 3: it attempts the write
at most 3 times; when the first `k` attempts fail and attempt `k` (for
`k < 3`) succeeds it stops and returns the object key after `k + 1`
attempts; and when all three attempts fail it raises after exactly 3
attempts. -/
theorem s3_put_bounded_retry (s3Faults : Nat → Bool) (s3Store : ObjStore)
    (user_id : Nat) (filename : String) (content : Bytes) :
    (upload_to_s3 s3Faults s3Store user_id filename content).2.2 ≤ 3 ∧
    (∀ k, k < 3 → (∀ j, j < k → s3Faults j = true) → s3Faults k = false →
      (upload_to_s3 s3Faults s3Store user_id filename content).1
          = Except.ok (s3ObjectKey user_id filename) ∧
        (upload_to_s3 s3Faults s3Store user_id filename content).2.2 = k + 1) ∧
    (s3Faults 0 = true → s3Faults 1 = true → s3Faults 2 = true →
      (upload_to_s3 s3Faults s3Store user_id filename content).1
          = Except.error "Failed to upload to S3: ClientError" ∧
        (upload_to_s3 s3Faults s3Store user_id filename content).2.2 = 3) := by
  refine ⟨?_, ?_, ?_⟩
  · have h := s3PutLoop_attempts_le s3Faults (s3ObjectKey user_id filename)
    unfold upload_to_s3 max_retries
    cases hl : (s3PutLoop s3Faults (s3ObjectKey user_id filename) 0 3).1 <;>
      simpa [hl] using h
  · intro k hk hprev hks
    interval_cases k
    · rw [upload_to_s3, max_retries, s3PutLoop_first_ok _ _ hks]
      exact ⟨rfl, rfl⟩
    · rw [upload_to_s3, max_retries,
        s3PutLoop_second_ok _ _ (hprev 0 (by norm_num)) hks]
      exact ⟨rfl, rfl⟩
    · rw [upload_to_s3, max_retries,
        s3PutLoop_third_ok _ _ (hprev 0 (by norm_num)) (hprev 1 (by norm_num)) hks]
      exact ⟨rfl, rfl⟩
  · intro h0 h1 h2
    rw [upload_to_s3, max_retries, s3PutLoop_all_fail _ _ h0 h1 h2]
    exact ⟨rfl, rfl⟩

/-- Witness for the claim C7 theorem: the bound, a run whose first attempt
fails and whose second succeeds (two attempts made, key returned), and a
run whose three attempts all fail (error after exactly three attempts). -/
theorem s3_put_bounded_retry_witness :
    (upload_to_s3 (fun n => decide (n = 0)) [] 1 "a.txt" [7]).2.2 ≤ 3 ∧
    ((upload_to_s3 (fun n => decide (n = 0)) [] 1 "a.txt" [7]).1
        = Except.ok (s3ObjectKey 1 "a.txt") ∧
      (upload_to_s3 (fun n => decide (n = 0)) [] 1 "a.txt" [7]).2.2 = 1 + 1) ∧
    ((upload_to_s3 (fun _ => true) [] 1 "a.txt" [7]).1
        = Except.error "Failed to upload to S3: ClientError" ∧
      (upload_to_s3 (fun _ => true) [] 1 "a.txt" [7]).2.2 = 3) := by
  refine ⟨(s3_put_bounded_retry (fun n => decide (n = 0)) [] 1 "a.txt" [7]).1,
    (s3_put_bounded_retry (fun n => decide (n = 0)) [] 1 "a.txt" [7]).2.1 1 (by norm_num)
      (by intro j hj; interval_cases j; decide) (by decide),
    (s3_put_bounded_retry (fun _ => true) [] 1 "a.txt" [7]).2.2 rfl rfl rfl⟩

/-! ## Claim C8 -/

/-- Counterexample to claim C8 as stated: the upload path stores the file
under `user-{userId}/{uuid}-{filename}`, not under the spec's
`owner-{ownerId}/{uuid}-{originalFilename}` convention.  At the concrete
input (owner 1, uuid `u0`, filename `a.txt`) the created record's key is
`user-1/u0-a.txt`, which differs from the convention's `owner-1/u0-a.txt`. -/
theorem object_key_owner_prefix_counterexample :
    createdKey (upload_file (fun _ => "h0") "u0" false ⟨[], [], []⟩ 1 "a.txt" [7] "text/plain").1
        = some (minioObjectKey 1 ("u0" ++ "-" ++ "a.txt")) ∧
      minioObjectKey 1 ("u0" ++ "-" ++ "a.txt") = "user-1/u0-a.txt" ∧
      minioObjectKey 1 ("u0" ++ "-" ++ "a.txt") ≠ specObjectKeyConvention 1 "u0" "a.txt" := by
  decide

/-- Claim C8 as amended: the object key follows the convention
`user-{ownerId}/{uuid}-{originalFilename}` (the tier-neutral part of the
key), and for any uuid and filename free of `/` the durable-tier key
computed by the transfer (`user-{userId}/{last segment of the fast key}`)
is literally the same string as the fast-tier key: the owner scope and
the unique filename component are preserved across tiers. -/
theorem object_key_convention_user_scoped (user_id : Nat) (uniq fname : String)
    (hu : ∀ c ∈ uniq.data, c ≠ '/') (hf : ∀ c ∈ fname.data, c ≠ '/') :
    minioObjectKey user_id (uniq ++ "-" ++ fname)
        = "user-" ++ toString user_id ++ "/" ++ (uniq ++ "-" ++ fname) ∧
      s3ObjectKey user_id (lastSegment (minioObjectKey user_id (uniq ++ "-" ++ fname)))
        = minioObjectKey user_id (uniq ++ "-" ++ fname) := by
  have hx : ∀ c ∈ (uniq ++ "-" ++ fname).data, c ≠ '/' := by
    intro c hc
    rw [String.data_append, String.data_append] at hc
    rcases List.mem_append.mp hc with h | h
    · rcases List.mem_append.mp h with h' | h'
      · exact hu c h'
      · simp only [List.mem_singleton] at h'
        subst h'; decide
    · exact hf c h
  refine ⟨rfl, ?_⟩
  rw [minioObjectKey, lastSegment_append _ _ hx]
  rfl

/-- Witness for the amended claim C8 theorem at owner 1, uuid `u0`,
filename `a.txt`. -/
theorem object_key_convention_user_scoped_witness :
    minioObjectKey 1 ("u0" ++ "-" ++ "a.txt")
        = "user-" ++ toString 1 ++ "/" ++ ("u0" ++ "-" ++ "a.txt") ∧
      s3ObjectKey 1 (lastSegment (minioObjectKey 1 ("u0" ++ "-" ++ "a.txt")))
        = minioObjectKey 1 ("u0" ++ "-" ++ "a.txt") :=
  object_key_convention_user_scoped 1 "u0" "a.txt" (by decide) (by decide)

/-! ## Lemmas about the upload path -/

lemma upload_file_created (hashFn : Bytes → String) (uniq : String) (st : SysState)
    (user_id : Nat) (fname : String) (content : Bytes) (ct : String)
    (hmax : ¬ MAX_FILE_SIZE_BYTES < content.length) (hpos : content.length ≠ 0)
    (hnew : findDuplicate st.records user_id (hashFn content) = none) :
    upload_file hashFn uniq false st user_id fname content ct =
      (UploadResult.created (uploadRecord hashFn uniq st user_id fname content ct),
       { records := st.records ++ [uploadRecord hashFn uniq st user_id fname content ct]
         minioStore := storePut st.minioStore
           (uploadRecord hashFn uniq st user_id fname content ct).object_key content
         s3Store := st.s3Store }) := by
  unfold upload_file
  simp only [if_neg hmax, if_neg hpos, hnew]
  rfl

lemma upload_file_duplicate (hashFn : Bytes → String) (uniq : String) (mf : Bool)
    (st : SysState) (user_id : Nat) (fname : String) (content : Bytes) (ct : String)
    (ex : FileRecord)
    (hmax : ¬ MAX_FILE_SIZE_BYTES < content.length) (hpos : content.length ≠ 0)
    (hdup : findDuplicate st.records user_id (hashFn content) = some ex) :
    upload_file hashFn uniq mf st user_id fname content ct =
      (UploadResult.duplicate ex, st) := by
  unfold upload_file
  simp only [if_neg hmax, if_neg hpos, hdup]

lemma findDuplicate_append_right (l1 l2 : List FileRecord) (user_id : Nat) (h : String)
    (h1 : findDuplicate l1 user_id h = none) :
    findDuplicate (l1 ++ l2) user_id h = findDuplicate l2 user_id h := by
  induction l1 with
  | nil => simp [findDuplicate]
  | cons r l1' ih =>
    simp only [findDuplicate, List.cons_append, List.find?] at h1 ⊢
    cases hr : (r.user_id == user_id && r.content_hash == some h) with
    | true => rw [hr] at h1; simp at h1
    | false =>
      rw [hr] at h1
      exact ih h1

lemma findDuplicate_cons_self (r : FileRecord) (l : List FileRecord) (h : String)
    (hh : r.content_hash = some h) :
    findDuplicate (r :: l) r.user_id h = some r := by
  simp [findDuplicate, List.find?, hh]

/-- Matches returned by the duplicate lookup always carry the looked-up
hash: a NULL `content_hash` row can never be the result. -/
lemma findDuplicate_hash (records : List FileRecord) (user_id : Nat) (h : String)
    (r : FileRecord) (hfind : findDuplicate records user_id h = some r) :
    r.content_hash = some h ∧ r.user_id = user_id := by
  have hmem := List.find?_some hfind
  simp only [Bool.and_eq_true, beq_iff_eq] at hmem
  exact ⟨hmem.2, hmem.1⟩

/-! ## Claim C1 -/

/-- Claim C1: uploading the same (valid, not previously stored) byte
content twice for the same owner yields exactly one record and one stored
object.  The first call creates `uploadRecord ...` and adds exactly one
object to the MinIO bucket; the second call returns a duplicate response
referencing that same record and leaves the whole persistent state
(records, MinIO bucket, S3 bucket) exactly as it was: no storage write,
no second record. -/
theorem dedup_second_upload (hashFn : Bytes → String) (u1 u2 : String)
    (st : SysState) (user_id : Nat) (fn1 fn2 : String) (content : Bytes)
    (ct1 ct2 : String)
    (hpos : 0 < content.length) (hmax : content.length ≤ MAX_FILE_SIZE_BYTES)
    (hnew : findDuplicate st.records user_id (hashFn content) = none) :
    upload_file hashFn u1 false st user_id fn1 content ct1 =
      (UploadResult.created (uploadRecord hashFn u1 st user_id fn1 content ct1),
       { records := st.records ++ [uploadRecord hashFn u1 st user_id fn1 content ct1]
         minioStore := storePut st.minioStore
           (uploadRecord hashFn u1 st user_id fn1 content ct1).object_key content
         s3Store := st.s3Store }) ∧
    upload_file hashFn u2 false
        (upload_file hashFn u1 false st user_id fn1 content ct1).2 user_id fn2 content ct2 =
      (UploadResult.duplicate (uploadRecord hashFn u1 st user_id fn1 content ct1),
       (upload_file hashFn u1 false st user_id fn1 content ct1).2) := by
  have hmax' : ¬ MAX_FILE_SIZE_BYTES < content.length := not_lt.mpr hmax
  have hpos' : content.length ≠ 0 := Nat.pos_iff_ne_zero.mp hpos
  have h1 := upload_file_created hashFn u1 st user_id fn1 content ct1 hmax' hpos' hnew
  refine ⟨h1, ?_⟩
  have hdup : findDuplicate
      (upload_file hashFn u1 false st user_id fn1 content ct1).2.records user_id
      (hashFn content) = some (uploadRecord hashFn u1 st user_id fn1 content ct1) := by
    rw [h1]
    rw [findDuplicate_append_right st.records _ user_id (hashFn content) hnew]
    exact findDuplicate_cons_self (uploadRecord hashFn u1 st user_id fn1 content ct1)
      [] (hashFn content) rfl
  exact upload_file_duplicate hashFn u2 false _ user_id fn2 content ct2 _ hmax' hpos' hdup

/-- Witness for the claim C1 theorem: uploading the byte `[7]` twice for
owner 1 starting from the empty state. -/
theorem dedup_second_upload_witness :
    upload_file (fun c => toString c.length) "u1" false ⟨[], [], []⟩ 1 "a.txt" [7] "t" =
      (UploadResult.created (uploadRecord (fun c => toString c.length) "u1" ⟨[], [], []⟩ 1 "a.txt" [7] "t"),
       { records := [] ++ [uploadRecord (fun c => toString c.length) "u1" ⟨[], [], []⟩ 1 "a.txt" [7] "t"]
         minioStore := storePut []
           (uploadRecord (fun c => toString c.length) "u1" ⟨[], [], []⟩ 1 "a.txt" [7] "t").object_key [7]
         s3Store := [] }) ∧
    upload_file (fun c => toString c.length) "u2" false
        (upload_file (fun c => toString c.length) "u1" false ⟨[], [], []⟩ 1 "a.txt" [7] "t").2 1 "b.txt" [7] "t" =
      (UploadResult.duplicate (uploadRecord (fun c => toString c.length) "u1" ⟨[], [], []⟩ 1 "a.txt" [7] "t"),
       (upload_file (fun c => toString c.length) "u1" false ⟨[], [], []⟩ 1 "a.txt" [7] "t").2) :=
  dedup_second_upload (fun c => toString c.length) "u1" "u2" ⟨[], [], []⟩ 1 "a.txt" "b.txt"
    [7] "t" "t" (by decide) (by decide) rfl

/-! ## Claim C10 -/

/-- Claim C10: a record whose `content_hash` is NULL (a pre-hash legacy
record) is never matched as a duplicate.  The duplicate lookup can only
return a record carrying the looked-up hash, so when the store holds a
legacy record for this owner whose stored bytes are exactly `content`
(and no hashed record with this content's hash), the upload creates a new
record and a new stored object instead of returning a duplicate
response. -/
theorem legacy_null_hash_not_deduped (hashFn : Bytes → String) (uniq : String)
    (st : SysState) (user_id : Nat) (fname : String) (content : Bytes) (ct : String)
    (legacy : FileRecord)
    (hmem : legacy ∈ st.records) (hnull : legacy.content_hash = none)
    (hbytes : storeLookup st.minioStore legacy.object_key = some content)
    (hpos : 0 < content.length) (hmax : content.length ≤ MAX_FILE_SIZE_BYTES)
    (hnohash : ∀ r ∈ st.records, r.content_hash ≠ some (hashFn content)) :
    (∀ h', findDuplicate st.records user_id h' ≠ some legacy ∨ legacy.content_hash = some h') ∧
    upload_file hashFn uniq false st user_id fname content ct =
      (UploadResult.created (uploadRecord hashFn uniq st user_id fname content ct),
       { records := st.records ++ [uploadRecord hashFn uniq st user_id fname content ct]
         minioStore := storePut st.minioStore
           (uploadRecord hashFn uniq st user_id fname content ct).object_key content
         s3Store := st.s3Store }) := by
  constructor
  · intro h'
    by_cases hf : findDuplicate st.records user_id h' = some legacy
    · exact Or.inr (findDuplicate_hash st.records user_id h' legacy hf).1
    · exact Or.inl hf
  · have hnew : findDuplicate st.records user_id (hashFn content) = none := by
      rw [findDuplicate, List.find?_eq_none]
      intro r hr
      simp only [Bool.and_eq_true, beq_iff_eq, not_and]
      intro _
      exact fun hc => hnohash r hr hc
    exact upload_file_created hashFn uniq st user_id fname content ct
      (not_lt.mpr hmax) (Nat.pos_iff_ne_zero.mp hpos) hnew

/-- Witness for the claim C10 theorem: re-uploading the bytes of the
legacy record `legacyDemoRecord` creates a fresh record. -/
theorem legacy_null_hash_not_deduped_witness :
    (∀ h', findDuplicate [legacyDemoRecord] 1 h' ≠ some legacyDemoRecord ∨
        legacyDemoRecord.content_hash = some h') ∧
    upload_file (fun c => toString c.length) "u1" false
        ⟨[legacyDemoRecord], [("user-1/u9-old.txt", [7])], []⟩ 1 "old.txt" [7] "t" =
      (UploadResult.created (uploadRecord (fun c => toString c.length) "u1"
          ⟨[legacyDemoRecord], [("user-1/u9-old.txt", [7])], []⟩ 1 "old.txt" [7] "t"),
       { records := [legacyDemoRecord] ++ [uploadRecord (fun c => toString c.length) "u1"
           ⟨[legacyDemoRecord], [("user-1/u9-old.txt", [7])], []⟩ 1 "old.txt" [7] "t"]
         minioStore := storePut [("user-1/u9-old.txt", [7])]
           (uploadRecord (fun c => toString c.length) "u1"
             ⟨[legacyDemoRecord], [("user-1/u9-old.txt", [7])], []⟩ 1 "old.txt" [7] "t").object_key [7]
         s3Store := [] }) :=
  legacy_null_hash_not_deduped (fun c => toString c.length) "u1"
    ⟨[legacyDemoRecord], [("user-1/u9-old.txt", [7])], []⟩ 1 "old.txt" [7] "t"
    legacyDemoRecord (by decide) rfl (by decide) (by decide) (by decide) (by decide)

/-! ## Lemmas about how one sync step transforms the record list -/

lemma SyncStepRel_refl (a : FileRecord) : SyncStepRel a a := ⟨rfl, Or.inl rfl⟩

lemma SyncStepRel_trans (a b c : FileRecord) (h1 : SyncStepRel a b)
    (h2 : SyncStepRel b c) : SyncStepRel a c := by
  obtain ⟨hid1, h1⟩ := h1
  obtain ⟨hid2, h2⟩ := h2
  refine ⟨hid2.trans hid1, ?_⟩
  rcases h2 with rfl | h2
  · exact h1
  · exact Or.inr h2

lemma rel_refl {R : FileRecord → FileRecord → Prop} (hR : ∀ a, R a a)
    (l : List FileRecord) : List.Forall₂ R l l := by
  induction l with
  | nil => exact List.Forall₂.nil
  | cons a l ih => exact List.Forall₂.cons (hR a) ih

lemma rel_comp {R : FileRecord → FileRecord → Prop}
    (hR : ∀ a b c, R a b → R b c → R a c) :
    ∀ {l1 l2 l3 : List FileRecord},
      List.Forall₂ R l1 l2 → List.Forall₂ R l2 l3 → List.Forall₂ R l1 l3 := by
  intro l1 l2 l3 h12
  induction h12 generalizing l3 with
  | nil => intro h; exact h
  | cons hab _ ih =>
    intro h23
    cases h23 with
    | cons hbc h' => exact List.Forall₂.cons (hR _ _ _ hab hbc) (ih h')

lemma rel_mem_right {R : FileRecord → FileRecord → Prop}
    {l1 l2 : List FileRecord} (h : List.Forall₂ R l1 l2) {b : FileRecord}
    (hb : b ∈ l2) : ∃ a ∈ l1, R a b := by
  induction h with
  | nil => cases hb
  | cons hab _ ih =>
    rcases List.mem_cons.mp hb with rfl | hb'
    · exact ⟨_, List.mem_cons_self _ _, hab⟩
    · obtain ⟨a, ha, hr⟩ := ih hb'
      exact ⟨a, List.mem_cons_of_mem _ ha, hr⟩

lemma rel_map_self {R : FileRecord → FileRecord → Prop}
    (f : FileRecord → FileRecord) (h : ∀ a, R a (f a)) (l : List FileRecord) :
    List.Forall₂ R l (l.map f) := by
  induction l with
  | nil => exact List.Forall₂.nil
  | cons a l ih => exact List.Forall₂.cons (h a) ih

lemma rel_map_id {l1 l2 : List FileRecord} (h : List.Forall₂ SyncStepRel l1 l2) :
    l2.map FileRecord.id = l1.map FileRecord.id := by
  induction h with
  | nil => rfl
  | cons hab _ ih => simp only [List.map_cons, ih, hab.1]

lemma rel_preserves_durable_at {l1 l2 : List FileRecord}
    (h : List.Forall₂ SyncStepRel l1 l2) (i : Nat)
    (h1 : ∀ r ∈ l1, r.id = i → r.storage_location = "s3") :
    ∀ r' ∈ l2, r'.id = i → r'.storage_location = "s3" := by
  intro r' hr' hid
  obtain ⟨a, ha, hid', hrel⟩ := rel_mem_right h hr'
  rcases hrel with hac | hs3
  · rw [hac]
    exact h1 a ha (hid'.symm.trans hid)
  · exact hs3.1

lemma commitRecordUpdate_rel (fid : Nat) (url : String) (now : Nat)
    (r : FileRecord) : SyncStepRel r (commitRecordUpdate fid url now r) := by
  unfold commitRecordUpdate SyncStepRel
  by_cases hr : r.id = fid
  · simp [hr]
  · simp [hr, SyncStepRel_refl]

lemma commitFileUpdate_rel (records : List FileRecord) (fid : Nat) (url : String)
    (now : Nat) : List.Forall₂ SyncStepRel records (commitFileUpdate records fid url now) :=
  rel_map_self _ (commitRecordUpdate_rel fid url now) records

lemma commitFileUpdate_sets (records : List FileRecord) (fid : Nat) (url : String)
    (now : Nat) : ∀ r' ∈ commitFileUpdate records fid url now,
      r'.id = fid → r'.storage_location = "s3" ∧ r'.synced_at = some now := by
  intro r' hr' hid
  obtain ⟨a, _, rfl⟩ := List.mem_map.mp hr'
  unfold commitRecordUpdate at hid ⊢
  by_cases h : a.id = fid
  · simp [h]
  · simp only [if_neg h] at hid
    exact absurd hid h

/-! ## Lemmas about `processFile` -/

lemma processFile_outcome (d : Bool) (flt : ItemFaults) (now : Nat) (st : SysState)
    (f : FileRecord) :
    (processFile d flt now st f).2 = itemOutcome flt st.minioStore f := by
  unfold processFile transfer_file_to_s3 upload_to_s3 itemOutcome
  cases hg : get_file_from_minio flt.fetchFault st.minioStore f.object_key with
  | error e => simp [hg]
  | ok content =>
    simp only [hg]
    cases hp : (s3PutLoop flt.s3Faults
        (s3ObjectKey f.user_id (lastSegment f.object_key)) 0 max_retries).1 with
    | error e => simp [hp]
    | ok key =>
      simp only [hp]
      cases hc : flt.commitFault <;> cases d <;> simp [hc]

lemma itemOutcome_cases (flt : ItemFaults) (store : ObjStore) (f : FileRecord) :
    itemOutcome flt store f = ItemOutcome.success ∨
      itemOutcome flt store f = ItemOutcome.failure (itemMsg flt store f) := by
  cases h : itemOutcome flt store f with
  | success => exact Or.inl rfl
  | failure e => right; rw [itemMsg, h]

lemma itemOutcome_success_iff (flt : ItemFaults) (store : ObjStore) (f : FileRecord) :
    (itemOutcome flt store f = ItemOutcome.success) ↔
      itemSucceedsB flt store f = true := by
  unfold itemOutcome itemSucceedsB get_file_from_minio max_retries
  cases hf : flt.fetchFault
  · cases hl : storeLookup store f.object_key with
    | none => simp [hl]
    | some content =>
      simp only [hl, Option.isSome_some, Bool.not_false, Bool.true_and,
        Bool.and_true, if_neg (by simp : ¬ (false = true))]
      cases h0 : flt.s3Faults 0
      · rw [s3PutLoop_first_ok _ _ h0]
        cases hc : flt.commitFault <;> simp [h0, hc]
      · cases h1 : flt.s3Faults 1
        · rw [s3PutLoop_second_ok _ _ h0 h1]
          cases hc : flt.commitFault <;> simp [h1, hc]
        · cases h2 : flt.s3Faults 2
          · rw [s3PutLoop_third_ok _ _ h0 h1 h2]
            cases hc : flt.commitFault <;> simp [h2, hc]
          · rw [s3PutLoop_all_fail _ _ h0 h1 h2]
            simp [h0, h1, h2]
  · simp [hf]

lemma processFile_failure_state (d : Bool) (flt : ItemFaults) (now : Nat)
    (st : SysState) (f : FileRecord) (e : String)
    (h : (processFile d flt now st f).2 = ItemOutcome.failure e) :
    (processFile d flt now st f).1.records = st.records ∧
      (processFile d flt now st f).1.minioStore = st.minioStore := by
  unfold processFile at h ⊢
  cases ht : transfer_file_to_s3 flt st.minioStore st.s3Store f.object_key f.user_id with
  | mk r s3' =>
    cases r with
    | error e' => simp [ht]
    | ok url =>
      rw [ht] at h
      cases hc : flt.commitFault
      · rw [hc] at h
        cases hd : d <;> simp [hd] at h
      · simp [ht, hc]

lemma processFile_minio_of_not_delete (flt : ItemFaults) (now : Nat)
    (st : SysState) (f : FileRecord) :
    (processFile false flt now st f).1.minioStore = st.minioStore := by
  unfold processFile
  cases ht : transfer_file_to_s3 flt st.minioStore st.s3Store f.object_key f.user_id with
  | mk r s3' =>
    cases r with
    | error e' => rfl
    | ok url => cases hc : flt.commitFault <;> rfl

lemma processFile_success_records (d : Bool) (flt : ItemFaults) (now : Nat)
    (st : SysState) (f : FileRecord)
    (h : (processFile d flt now st f).2 = ItemOutcome.success) :
    ∃ url, (processFile d flt now st f).1.records
        = commitFileUpdate st.records f.id url now := by
  unfold processFile at h ⊢
  cases ht : transfer_file_to_s3 flt st.minioStore st.s3Store f.object_key f.user_id with
  | mk r s3' =>
    cases r with
    | error e' => rw [ht] at h; simp at h
    | ok url =>
      rw [ht] at h
      cases hc : flt.commitFault
      · cases d <;> exact ⟨url, by simp [ht, hc]⟩
      · rw [hc] at h; simp at h

lemma processFile_records_rel (d : Bool) (flt : ItemFaults) (now : Nat)
    (st : SysState) (f : FileRecord) :
    List.Forall₂ SyncStepRel st.records (processFile d flt now st f).1.records := by
  cases h : (processFile d flt now st f).2 with
  | success =>
    obtain ⟨url, hu⟩ := processFile_success_records d flt now st f h
    rw [hu]
    exact commitFileUpdate_rel st.records f.id url now
  | failure e =>
    rw [(processFile_failure_state d flt now st f e h).1]
    exact rel_refl SyncStepRel_refl st.records

lemma processFile_success_sets (d : Bool) (flt : ItemFaults) (now : Nat)
    (st : SysState) (f : FileRecord)
    (h : (processFile d flt now st f).2 = ItemOutcome.success) :
    ∀ r' ∈ (processFile d flt now st f).1.records,
      r'.id = f.id → r'.storage_location = "s3" ∧ r'.synced_at = some now := by
  obtain ⟨url, hu⟩ := processFile_success_records d flt now st f h
  rw [hu]
  exact commitFileUpdate_sets st.records f.id url now

/-- How the fold of `process_file_batch` transforms statistics and state
when the cleanup flag is disabled: the MinIO bucket is constant through
the batch (so per-item success is a function of the initial bucket), the
record list evolves along `SyncStepRel`, every item is counted in
`processed`, successes and failures are counted independently, each failed
item contributes exactly its own error message, and every successfully
processed record ends on tier `"s3"`. -/
lemma batch_fold_spec (flt : Nat → ItemFaults) (now : Nat) :
    ∀ (l : List FileRecord) (s0 : BatchStats) (st : SysState),
      (l.foldl (batchStep false flt now) (s0, st)).2.minioStore = st.minioStore ∧
      List.Forall₂ SyncStepRel st.records
        (l.foldl (batchStep false flt now) (s0, st)).2.records ∧
      (l.foldl (batchStep false flt now) (s0, st)).1.processed
          = s0.processed + l.length ∧
      (l.foldl (batchStep false flt now) (s0, st)).1.succeeded
          = s0.succeeded + l.countP (fun f => itemSucceedsB (flt f.id) st.minioStore f) ∧
      (l.foldl (batchStep false flt now) (s0, st)).1.failed
          = s0.failed + l.countP (fun f => !(itemSucceedsB (flt f.id) st.minioStore f)) ∧
      (l.foldl (batchStep false flt now) (s0, st)).1.errors
          = s0.errors ++ (l.filter (fun f => !(itemSucceedsB (flt f.id) st.minioStore f))).map
              (fun f => itemMsg (flt f.id) st.minioStore f) ∧
      (∀ f ∈ l, itemSucceedsB (flt f.id) st.minioStore f = true →
        ∀ r' ∈ (l.foldl (batchStep false flt now) (s0, st)).2.records,
          r'.id = f.id → r'.storage_location = "s3") := by
  intro l
  induction l with
  | nil =>
    intro s0 st
    refine ⟨rfl, rel_refl SyncStepRel_refl st.records, by simp, by simp, by simp,
      by simp, ?_⟩
    intro f hf
    cases hf
  | cons f l ih =>
    intro s0 st
    cases hP : processFile false (flt f.id) now st f with
    | mk st' o =>
      have ho : itemOutcome (flt f.id) st.minioStore f = o := by
        rw [← processFile_outcome false (flt f.id) now st f, hP]
      have hm : st'.minioStore = st.minioStore := by
        have h := processFile_minio_of_not_delete (flt f.id) now st f
        rwa [hP] at h
      have hrel : List.Forall₂ SyncStepRel st.records st'.records := by
        have h := processFile_records_rel false (flt f.id) now st f
        rwa [hP] at h
      cases o with
      | success =>
        have hs : itemSucceedsB (flt f.id) st.minioStore f = true :=
          (itemOutcome_success_iff (flt f.id) st.minioStore f).mp ho
        have hstep : batchStep false flt now (s0, st) f =
            ({ processed := s0.processed + 1, succeeded := s0.succeeded + 1,
               failed := s0.failed, errors := s0.errors }, st') := by
          unfold batchStep
          rw [hP]
        obtain ⟨ih1, ih2, ih3, ih4, ih5, ih6, ih7⟩ :=
          ih { processed := s0.processed + 1, succeeded := s0.succeeded + 1,
               failed := s0.failed, errors := s0.errors } st'
        simp only [hm] at ih1 ih4 ih5 ih6 ih7
        rw [List.foldl_cons, hstep]
        refine ⟨ih1, rel_comp SyncStepRel_trans hrel ih2, ?_, ?_, ?_, ?_, ?_⟩
        · rw [ih3]; simp; omega
        · rw [ih4]; simp [List.countP_cons, hs]; omega
        · rw [ih5]; simp [List.countP_cons, hs]
        · rw [ih6]; simp [List.filter_cons, hs]
        · intro f' hf' hsucc'
          rcases List.mem_cons.mp hf' with hff | hmem'
          · subst hff
            have hbase : ∀ r ∈ st'.records,
                r.id = f'.id → r.storage_location = "s3" := by
              intro r hr hid
              have hsets := processFile_success_sets false (flt f'.id) now st f'
                (by rw [hP]) r (by rw [hP]; exact hr) hid
              exact hsets.1
            exact rel_preserves_durable_at ih2 f'.id hbase
          · exact ih7 f' hmem' hsucc'
      | failure e =>
        have hs : itemSucceedsB (flt f.id) st.minioStore f = false := by
          cases hsb : itemSucceedsB (flt f.id) st.minioStore f
          · rfl
          · have h := (itemOutcome_success_iff (flt f.id) st.minioStore f).mpr hsb
            rw [h] at ho
            cases ho
        have he : e = itemMsg (flt f.id) st.minioStore f := by
          rcases itemOutcome_cases (flt f.id) st.minioStore f with hcase | hcase
          · rw [hcase] at ho; cases ho
          · rw [hcase] at ho
            injection ho with h
            exact h.symm
        have hrec : st'.records = st.records := by
          have h := (processFile_failure_state false (flt f.id) now st f e (by rw [hP])).1
          rwa [hP] at h
        have hstep : batchStep false flt now (s0, st) f =
            ({ processed := s0.processed + 1, succeeded := s0.succeeded,
               failed := s0.failed + 1, errors := s0.errors ++ [e] }, st') := by
          unfold batchStep
          rw [hP]
        obtain ⟨ih1, ih2, ih3, ih4, ih5, ih6, ih7⟩ :=
          ih { processed := s0.processed + 1, succeeded := s0.succeeded,
               failed := s0.failed + 1, errors := s0.errors ++ [e] } st'
        simp only [hm] at ih1 ih4 ih5 ih6 ih7
        rw [List.foldl_cons, hstep]
        refine ⟨ih1, rel_comp SyncStepRel_trans hrel ih2, ?_, ?_, ?_, ?_, ?_⟩
        · rw [ih3]; simp; omega
        · rw [ih4]; simp [List.countP_cons, hs]
        · rw [ih5]; simp [List.countP_cons, hs]; omega
        · rw [ih6]; simp [List.filter_cons, hs, he]
        · intro f' hf' hsucc'
          rcases List.mem_cons.mp hf' with hff | hmem'
          · subst hff
            rw [hsucc'] at hs
            cases hs
          · exact ih7 f' hmem' hsucc'

/-! ## Statistics aggregation and the batch partition of `main` -/

lemma addStats_right_empty (s : BatchStats) : addStats s emptyStats = s := by
  cases s; simp [addStats, emptyStats]

lemma addStats_left_empty (s : BatchStats) : addStats emptyStats s = s := by
  cases s; simp [addStats, emptyStats]

lemma addStats_assoc (a b c : BatchStats) :
    addStats (addStats a b) c = addStats a (addStats b c) := by
  cases a; cases b; cases c
  simp [addStats, Nat.add_assoc, List.append_assoc]

lemma batchStep_shift (d : Bool) (flt : Nat → ItemFaults) (now : Nat)
    (s0 s1 : BatchStats) (st : SysState) (f : FileRecord) :
    batchStep d flt now (addStats s0 s1, st) f
      = (addStats s0 (batchStep d flt now (s1, st) f).1,
         (batchStep d flt now (s1, st) f).2) := by
  unfold batchStep
  cases hP : processFile d (flt f.id) now st f with
  | mk st' o => cases o <;> simp [addStats, Nat.add_assoc, List.append_assoc]

lemma batchStep_snd (d : Bool) (flt : Nat → ItemFaults) (now : Nat)
    (acc : BatchStats × SysState) (f : FileRecord) :
    (batchStep d flt now acc f).2 = (processFile d (flt f.id) now acc.2 f).1 := by
  unfold batchStep
  cases processFile d (flt f.id) now acc.2 f with
  | mk st' o => cases o <;> rfl

lemma foldl_batchStep_shift (d : Bool) (flt : Nat → ItemFaults) (now : Nat) :
    ∀ (l : List FileRecord) (s0 s1 : BatchStats) (st : SysState),
      l.foldl (batchStep d flt now) (addStats s0 s1, st)
        = (addStats s0 (l.foldl (batchStep d flt now) (s1, st)).1,
           (l.foldl (batchStep d flt now) (s1, st)).2) := by
  intro l
  induction l with
  | nil => intro s0 s1 st; rfl
  | cons f l ih =>
    intro s0 s1 st
    rw [List.foldl_cons, List.foldl_cons, batchStep_shift]
    rw [ih]

lemma process_file_batch_append (d : Bool) (flt : Nat → ItemFaults) (now : Nat)
    (l1 l2 : List FileRecord) (st : SysState) :
    process_file_batch d flt now (l1 ++ l2) st
      = (addStats (process_file_batch d flt now l1 st).1
           (process_file_batch d flt now l2 (process_file_batch d flt now l1 st).2).1,
         (process_file_batch d flt now l2 (process_file_batch d flt now l1 st).2).2) := by
  unfold process_file_batch
  rw [List.foldl_append]
  have hx : List.foldl (batchStep d flt now) (emptyStats, st) l1
      = (addStats (List.foldl (batchStep d flt now) (emptyStats, st) l1).1 emptyStats,
         (List.foldl (batchStep d flt now) (emptyStats, st) l1).2) := by
    rw [addStats_right_empty]
  conv_lhs => rw [hx]
  rw [foldl_batchStep_shift]

lemma foldl_records_rel (d : Bool) (flt : Nat → ItemFaults) (now : Nat) :
    ∀ (l : List FileRecord) (s0 : BatchStats) (st : SysState),
      List.Forall₂ SyncStepRel st.records
        (l.foldl (batchStep d flt now) (s0, st)).2.records := by
  intro l
  induction l with
  | nil => intro s0 st; exact rel_refl SyncStepRel_refl st.records
  | cons f l ih =>
    intro s0 st
    rw [List.foldl_cons, ← @Prod.mk.eta _ _ (batchStep d flt now (s0, st) f)]
    refine rel_comp SyncStepRel_trans ?_ (ih _ _)
    rw [batchStep_snd]
    exact processFile_records_rel d (flt f.id) now st f

lemma toBatches_foldl (d : Bool) (flt : Nat → ItemFaults) (now : Nat) (n : Nat)
    (l : List FileRecord) :
    ∀ (s0 : BatchStats) (st : SysState),
      (toBatches n l).foldl
          (fun acc batch =>
            (addStats acc.1 (process_file_batch d flt now batch acc.2).1,
             (process_file_batch d flt now batch acc.2).2)) (s0, st)
        = (addStats s0 (process_file_batch d flt now l st).1,
           (process_file_batch d flt now l st).2) := by
  induction l using toBatches.induct n with
  | case1 =>
    intro s0 st
    rw [toBatches]
    show (s0, st) = _
    simp [process_file_batch, addStats_right_empty]
  | case2 x xs ih =>
    intro s0 st
    rw [toBatches]
    simp only [List.foldl_cons]
    rw [ih]
    have hsplit : x :: xs = (x :: List.take n xs) ++ List.drop n xs := by
      rw [List.cons_append, List.take_append_drop]
    rw [hsplit, process_file_batch_append, addStats_assoc]

lemma runSync_eq (batchSize : Nat) (d : Bool) (flt : Nat → ItemFaults) (now : Nat)
    (st : SysState) :
    runSync batchSize d flt now st
      = if eligibleFiles st.records = [] then (emptyStats, st)
        else process_file_batch d flt now (eligibleFiles st.records) st := by
  unfold runSync
  by_cases h : eligibleFiles st.records = []
  · simp [h]
  · rw [if_neg (by simpa [List.length_eq_zero] using h), if_neg h]
    rw [toBatches_foldl, addStats_left_empty]

lemma runSync_records_rel (batchSize : Nat) (d : Bool) (flt : Nat → ItemFaults)
    (now : Nat) (st : SysState) :
    List.Forall₂ SyncStepRel st.records (runSync batchSize d flt now st).2.records := by
  rw [runSync_eq]
  by_cases h : eligibleFiles st.records = []
  · rw [if_pos h]
    exact rel_refl SyncStepRel_refl st.records
  · rw [if_neg h]
    exact foldl_records_rel d flt now (eligibleFiles st.records) emptyStats st

/-! ## Case analysis of the upload path's effect on the record list -/

lemma upload_file_records_cases (hashFn : Bytes → String) (uniq : String) (mf : Bool)
    (st : SysState) (user_id : Nat) (fname : String) (content : Bytes) (ct : String) :
    (upload_file hashFn uniq mf st user_id fname content ct).2.records = st.records ∨
      (upload_file hashFn uniq mf st user_id fname content ct).2.records
        = st.records ++ [uploadRecord hashFn uniq st user_id fname content ct] := by
  unfold upload_file
  by_cases h1 : MAX_FILE_SIZE_BYTES < content.length
  · rw [if_pos h1]; exact Or.inl rfl
  · rw [if_neg h1]
    by_cases h2 : content.length = 0
    · rw [if_pos h2]; exact Or.inl rfl
    · rw [if_neg h2]
      cases hd : findDuplicate st.records user_id (hashFn content) with
      | some ex => exact Or.inl rfl
      | none =>
        cases mf
        · exact Or.inr rfl
        · exact Or.inl rfl

lemma upload_file_created_inv (hashFn : Bytes → String) (uniq : String) (mf : Bool)
    (st : SysState) (user_id : Nat) (fname : String) (content : Bytes) (ct : String)
    (newRec : FileRecord)
    (h : (upload_file hashFn uniq mf st user_id fname content ct).1
        = UploadResult.created newRec) :
    newRec = uploadRecord hashFn uniq st user_id fname content ct := by
  unfold upload_file at h
  by_cases h1 : MAX_FILE_SIZE_BYTES < content.length
  · rw [if_pos h1] at h; cases h
  · rw [if_neg h1] at h
    by_cases h2 : content.length = 0
    · rw [if_pos h2] at h; cases h
    · rw [if_neg h2] at h
      cases hd : findDuplicate st.records user_id (hashFn content) with
      | some ex => rw [hd] at h; cases h
      | none =>
        rw [hd] at h
        cases mf
        · simp at h; exact h.symm
        · simp at h

/-! ## Claim C3 -/

/-- Claim C3: on any failed sync item — fetch failure, durable-upload
failure (all three attempts), or failure to persist the record update
after a successful durable write — the record list is left unchanged
(tier still `"minio"`, locator and `synced_at` unmodified) and the MinIO
bucket is untouched: the fast-tier source object is never deleted on a
failed item, with or without the cleanup flag. -/
theorem failed_item_preserves_record_and_source
    (d : Bool) (flt : ItemFaults) (now : Nat) (st : SysState) (f : FileRecord)
    (e : String)
    (hfail : (processFile d flt now st f).2 = ItemOutcome.failure e) :
    (processFile d flt now st f).1.records = st.records ∧
      (processFile d flt now st f).1.minioStore = st.minioStore :=
  processFile_failure_state d flt now st f e hfail

/-- Witness for the claim C3 theorem: a commit-persistence failure after a
successful durable write (with the cleanup flag even enabled) leaves the
records and the MinIO bucket of `demoState` unchanged. -/
theorem failed_item_preserves_record_and_source_witness :
    (processFile true commitFaulty 5 demoState (demoFile 1)).1.records
        = demoState.records ∧
      (processFile true commitFaulty 5 demoState (demoFile 1)).1.minioStore
        = demoState.minioStore :=
  failed_item_preserves_record_and_source true commitFaulty 5 demoState (demoFile 1)
    ("Failed to sync file " ++ toString (demoFile 1).id ++ ": commit failed") (by decide)

/-! ## Claim C4 -/

/-- Claim C4: the fast-tier cleanup delete is issued only after the record
update has been committed and only when the cleanup flag is enabled — on a
failed item the MinIO bucket is unchanged, and with the flag disabled it
is unchanged as well; and a cleanup failure neither reverts the committed
record state nor changes the item's outcome: whenever the pipeline
succeeds (a condition independent of the cleanup fault), the item is
`success` and its record is committed to tier `"s3"` with `synced_at`
set, for every value of the cleanup fault. -/
theorem cleanup_only_after_commit (d : Bool) (flt : ItemFaults) (now : Nat)
    (st : SysState) (f : FileRecord) :
    (∀ e, (processFile d flt now st f).2 = ItemOutcome.failure e →
      (processFile d flt now st f).1.minioStore = st.minioStore) ∧
    (d = false → (processFile d flt now st f).1.minioStore = st.minioStore) ∧
    (itemSucceedsB flt st.minioStore f = true →
      (processFile d flt now st f).2 = ItemOutcome.success ∧
      ∀ r' ∈ (processFile d flt now st f).1.records,
        r'.id = f.id → r'.storage_location = "s3" ∧ r'.synced_at = some now) := by
  refine ⟨?_, ?_, ?_⟩
  · intro e he
    exact (processFile_failure_state d flt now st f e he).2
  · intro hd
    subst hd
    exact processFile_minio_of_not_delete flt now st f
  · intro hsucc
    have hout : (processFile d flt now st f).2 = ItemOutcome.success := by
      rw [processFile_outcome]
      exact (itemOutcome_success_iff flt st.minioStore f).mpr hsucc
    exact ⟨hout, processFile_success_sets d flt now st f hout⟩

/-- Witness for the claim C4 theorem: a failed item leaves the bucket
alone even with cleanup enabled; a disabled flag leaves the bucket alone;
and an item whose only fault is the cleanup delete still succeeds and its
record is committed to the durable tier. -/
theorem cleanup_only_after_commit_witness :
    ((processFile true fetchFaulty 5 demoState (demoFile 1)).1.minioStore
        = demoState.minioStore) ∧
    ((processFile false noFaults 5 demoState (demoFile 1)).1.minioStore
        = demoState.minioStore) ∧
    ((processFile true cleanupFaulty 5 demoState (demoFile 1)).2 = ItemOutcome.success ∧
      ∀ r' ∈ (processFile true cleanupFaulty 5 demoState (demoFile 1)).1.records,
        r'.id = (demoFile 1).id → r'.storage_location = "s3" ∧ r'.synced_at = some 5) :=
  ⟨(cleanup_only_after_commit true fetchFaulty 5 demoState (demoFile 1)).1
      ("Failed to sync file " ++ toString (demoFile 1).id ++
        ": Failed to retrieve file from MinIO: S3Error") (by decide),
   (cleanup_only_after_commit false noFaults 5 demoState (demoFile 1)).2.1 rfl,
   (cleanup_only_after_commit true cleanupFaulty 5 demoState (demoFile 1)).2.2 (by decide)⟩

/-! ## Claim C2 -/

/-- Claim C2: in a batch `pre ++ fk :: post` where exactly the item `fk`
fails (any pipeline failure: its fetch faults, its durable upload
exhausts its attempts, its object is missing, or its commit faults) and
every other item succeeds, `process_file_batch` reports
`processed = N`, `succeeded = N - 1`, `failed = 1`, records exactly the
failing item's error message, and every other item's record ends on tier
`"s3"` — the failure aborts neither the batch nor the job. -/
theorem batch_partial_failure_isolation
    (flt : Nat → ItemFaults) (now : Nat) (st : SysState)
    (pre post : List FileRecord) (fk : FileRecord)
    (hpre : ∀ f ∈ pre, itemSucceedsB (flt f.id) st.minioStore f = true)
    (hpost : ∀ f ∈ post, itemSucceedsB (flt f.id) st.minioStore f = true)
    (hk : itemSucceedsB (flt fk.id) st.minioStore fk = false)
    (hmem : ∀ f ∈ pre ++ post, f ∈ st.records) :
    (process_file_batch false flt now (pre ++ fk :: post) st).1.processed
        = (pre ++ fk :: post).length ∧
    (process_file_batch false flt now (pre ++ fk :: post) st).1.succeeded
        = (pre ++ fk :: post).length - 1 ∧
    (process_file_batch false flt now (pre ++ fk :: post) st).1.failed = 1 ∧
    (process_file_batch false flt now (pre ++ fk :: post) st).1.errors
        = [itemMsg (flt fk.id) st.minioStore fk] ∧
    (∀ f ∈ pre ++ post,
      f.id ∈ (process_file_batch false flt now (pre ++ fk :: post) st).2.records.map
          FileRecord.id ∧
      ∀ r' ∈ (process_file_batch false flt now (pre ++ fk :: post) st).2.records,
        r'.id = f.id → r'.storage_location = "s3") := by
  obtain ⟨h1, h2, h3, h4, h5, h6, h7⟩ :=
    batch_fold_spec flt now (pre ++ fk :: post) emptyStats st
  have hpfb : process_file_batch false flt now (pre ++ fk :: post) st
      = (pre ++ fk :: post).foldl (batchStep false flt now) (emptyStats, st) := rfl
  rw [hpfb]
  have hcs : (pre ++ fk :: post).countP
      (fun f => itemSucceedsB (flt f.id) st.minioStore f)
      = pre.length + post.length := by
    rw [List.countP_append, List.countP_cons]
    rw [List.countP_eq_length.mpr hpre, List.countP_eq_length.mpr hpost]
    simp [hk]
  have hcf : (pre ++ fk :: post).countP
      (fun f => !(itemSucceedsB (flt f.id) st.minioStore f)) = 1 := by
    rw [List.countP_append, List.countP_cons]
    have hz : ∀ (l : List FileRecord),
        (∀ f ∈ l, itemSucceedsB (flt f.id) st.minioStore f = true) →
        l.countP (fun f => !(itemSucceedsB (flt f.id) st.minioStore f)) = 0 := by
      intro l hl
      rw [List.countP_eq_zero]
      intro a ha
      simp [hl a ha]
    rw [hz pre hpre, hz post hpost]
    simp [hk]
  have hfil : (pre ++ fk :: post).filter
      (fun f => !(itemSucceedsB (flt f.id) st.minioStore f)) = [fk] := by
    rw [List.filter_append, List.filter_cons]
    have hz : ∀ (l : List FileRecord),
        (∀ f ∈ l, itemSucceedsB (flt f.id) st.minioStore f = true) →
        l.filter (fun f => !(itemSucceedsB (flt f.id) st.minioStore f)) = [] := by
      intro l hl
      rw [List.filter_eq_nil_iff]
      intro a ha
      simp [hl a ha]
    rw [hz pre hpre, hz post hpost]
    simp [hk]
  refine ⟨by rw [h3]; simp [emptyStats], ?_, ?_, ?_, ?_⟩
  · rw [h4, hcs]
    simp [emptyStats]
  · rw [h5, hcf]
    simp [emptyStats]
  · rw [h6, hfil]
    simp [emptyStats]
  · intro f hf
    have hfl : f ∈ pre ++ fk :: post := by
      rcases List.mem_append.mp hf with hm | hm
      · exact List.mem_append_left _ hm
      · exact List.mem_append_right _ (List.mem_cons_of_mem fk hm)
    have hfs : itemSucceedsB (flt f.id) st.minioStore f = true := by
      rcases List.mem_append.mp hf with hm | hm
      · exact hpre f hm
      · exact hpost f hm
    constructor
    · rw [rel_map_id h2]
      exact List.mem_map_of_mem FileRecord.id (hmem f hf)
    · exact h7 f hfl hfs

/-- Witness for the claim C2 theorem: of the three eligible records of
`demoState`, only the one with id 2 fails (its MinIO GET faults); the
batch reports 3 processed, 2 succeeded, 1 failed, exactly one error, and
the records with ids 1 and 3 end on the durable tier. -/
theorem batch_partial_failure_isolation_witness :
    (process_file_batch false demoFaults 5
        ([demoFile 1] ++ demoFile 2 :: [demoFile 3]) demoState).1.processed
        = ([demoFile 1] ++ demoFile 2 :: [demoFile 3]).length ∧
    (process_file_batch false demoFaults 5
        ([demoFile 1] ++ demoFile 2 :: [demoFile 3]) demoState).1.succeeded
        = ([demoFile 1] ++ demoFile 2 :: [demoFile 3]).length - 1 ∧
    (process_file_batch false demoFaults 5
        ([demoFile 1] ++ demoFile 2 :: [demoFile 3]) demoState).1.failed = 1 ∧
    (process_file_batch false demoFaults 5
        ([demoFile 1] ++ demoFile 2 :: [demoFile 3]) demoState).1.errors
        = [itemMsg (demoFaults (demoFile 2).id) demoState.minioStore (demoFile 2)] ∧
    (∀ f ∈ [demoFile 1] ++ [demoFile 3],
      f.id ∈ (process_file_batch false demoFaults 5
          ([demoFile 1] ++ demoFile 2 :: [demoFile 3]) demoState).2.records.map
          FileRecord.id ∧
      ∀ r' ∈ (process_file_batch false demoFaults 5
          ([demoFile 1] ++ demoFile 2 :: [demoFile 3]) demoState).2.records,
        r'.id = f.id → r'.storage_location = "s3") :=
  batch_partial_failure_isolation demoFaults 5 demoState [demoFile 1] [demoFile 3]
    (demoFile 2) (by decide) (by decide) (by decide) (by decide)

/-! ## Claim C5 -/

/-- Claim C5: `synced_at` is set if and only if the record's tier is
durable, and this invariant is preserved by every operation of the
subsystem: the upload path creates records with tier `"minio"` and
`synced_at` NULL (and leaves other records alone), and the sync job's
commit sets tier `"s3"` and `synced_at` together in one atomic record
update, so a store satisfying the invariant still satisfies it after an
upload and after a whole sync run. -/
theorem synced_iff_durable_invariant
    (hashFn : Bytes → String) (uniq : String) (mf : Bool) (stU : SysState)
    (user_id : Nat) (fname : String) (content : Bytes) (ct : String)
    (batchSize : Nat) (d : Bool) (flt : Nat → ItemFaults) (now : Nat) (stS : SysState)
    (hU : ∀ r ∈ stU.records, syncedIffDurable r)
    (hS : ∀ r ∈ stS.records, syncedIffDurable r) :
    (∀ newRec, (upload_file hashFn uniq mf stU user_id fname content ct).1
        = UploadResult.created newRec →
      newRec.storage_location = "minio" ∧ newRec.synced_at = none) ∧
    (∀ r' ∈ (upload_file hashFn uniq mf stU user_id fname content ct).2.records,
      syncedIffDurable r') ∧
    (∀ r' ∈ (runSync batchSize d flt now stS).2.records, syncedIffDurable r') := by
  refine ⟨?_, ?_, ?_⟩
  · intro newRec h
    rw [upload_file_created_inv hashFn uniq mf stU user_id fname content ct newRec h]
    exact ⟨rfl, rfl⟩
  · intro r' hr'
    rcases upload_file_records_cases hashFn uniq mf stU user_id fname content ct with
      hc | hc
    · rw [hc] at hr'
      exact hU r' hr'
    · rw [hc] at hr'
      rcases List.mem_append.mp hr' with hm | hm
      · exact hU r' hm
      · have hm' := List.mem_singleton.mp hm
        rw [hm']
        have hne : ¬ (("minio" : String) = "s3") := by decide
        exact iff_of_false (by simp [uploadRecord]) hne
  · intro r' hr'
    obtain ⟨a, ha, hid, hrel⟩ :=
      rel_mem_right (runSync_records_rel batchSize d flt now stS) hr'
    rcases hrel with hac | hs3
    · rw [hac]
      exact hS a ha
    · exact iff_of_true hs3.2 hs3.1

/-- Witness for the claim C5 theorem at a fresh upload into the empty
store and a sync run over `demoState`, both of which satisfy the
invariant. -/
theorem synced_iff_durable_invariant_witness :
    (∀ newRec, (upload_file (fun c => toString c.length) "u1" false ⟨[], [], []⟩
        1 "a.txt" [7] "t").1 = UploadResult.created newRec →
      newRec.storage_location = "minio" ∧ newRec.synced_at = none) ∧
    (∀ r' ∈ (upload_file (fun c => toString c.length) "u1" false ⟨[], [], []⟩
        1 "a.txt" [7] "t").2.records, syncedIffDurable r') ∧
    (∀ r' ∈ (runSync 10 false (fun _ => noFaults) 5 demoState).2.records,
      syncedIffDurable r') :=
  synced_iff_durable_invariant (fun c => toString c.length) "u1" false ⟨[], [], []⟩
    1 "a.txt" [7] "t" 10 false (fun _ => noFaults) 5 demoState
    (by decide) (by decide)

/-! ## Claim C6 -/

/-- Claim C6: tier transitions are monotonic.  The upload path never
modifies an existing record at all (the original record list is a prefix
of the new one), and over a whole sync run every record that was on the
durable tier is still on the durable tier — the only modeled transition
is fast to durable, never the reverse. -/
theorem tier_monotonic
    (hashFn : Bytes → String) (uniq : String) (mf : Bool) (stU : SysState)
    (user_id : Nat) (fname : String) (content : Bytes) (ct : String)
    (batchSize : Nat) (d : Bool) (flt : Nat → ItemFaults) (now : Nat)
    (stS : SysState) :
    (upload_file hashFn uniq mf stU user_id fname content ct).2.records.take
        stU.records.length = stU.records ∧
    List.Forall₂ (fun a b => a.storage_location = "s3" → b.storage_location = "s3")
      stS.records (runSync batchSize d flt now stS).2.records := by
  constructor
  · rcases upload_file_records_cases hashFn uniq mf stU user_id fname content ct with
      hc | hc
    · rw [hc, List.take_length]
    · rw [hc, List.take_left]
  · refine List.Forall₂.imp ?_ (runSync_records_rel batchSize d flt now stS)
    intro a b hab hs3
    rcases hab.2 with hba | h
    · rw [hba]
      exact hs3
    · exact h.1

/-! ## Claim C9 -/

lemma runSync_all_success_no_eligible (b : Nat) (flt : Nat → ItemFaults) (now : Nat)
    (st : SysState)
    (hall : ∀ f ∈ eligibleFiles st.records,
      itemSucceedsB (flt f.id) st.minioStore f = true) :
    eligibleFiles (runSync b false flt now st).2.records = [] := by
  by_cases h : eligibleFiles st.records = []
  · rw [runSync_eq, if_pos h]
    exact h
  · rw [runSync_eq, if_neg h]
    obtain ⟨h1, h2, h3, h4, h5, h6, h7⟩ :=
      batch_fold_spec flt now (eligibleFiles st.records) emptyStats st
    unfold process_file_batch
    rw [eligibleFiles, List.filter_eq_nil_iff]
    intro r' hr'
    obtain ⟨a, ha, hid, hrel⟩ := rel_mem_right h2 hr'
    by_cases hloc : a.storage_location = "minio"
    · have hfa : a ∈ eligibleFiles st.records :=
        List.mem_filter.mpr ⟨ha, by simp [hloc]⟩
      have hs3 := h7 a hfa (hall a hfa) r' hr' hid
      simp [hs3]
    · rcases hrel with hra | hs3
      · rw [hra]
        simp [hloc]
      · simp [hs3.1]

/-- Claim C9: running the sync orchestrator on a store with zero
fast-tier records performs zero transfers (all statistics zero) and
leaves the state unchanged; and when a first run transitions every
eligible record (every eligible item succeeds), a second run performs
zero transfers and leaves the state of the first run unchanged. -/
theorem sync_idempotent_when_no_eligible
    (b1 b2 : Nat) (d : Bool) (flt flt2 : Nat → ItemFaults) (now now2 : Nat)
    (st : SysState) :
    (eligibleFiles st.records = [] → runSync b1 d flt now st = (emptyStats, st)) ∧
    ((∀ f ∈ eligibleFiles st.records,
        itemSucceedsB (flt f.id) st.minioStore f = true) →
      runSync b2 false flt2 now2 (runSync b1 false flt now st).2
        = (emptyStats, (runSync b1 false flt now st).2)) := by
  constructor
  · intro h
    rw [runSync_eq, if_pos h]
  · intro hall
    have h := runSync_all_success_no_eligible b1 flt now st hall
    rw [runSync_eq, if_pos h]

/-- Witness for the claim C9 theorem: a run over the empty store does
nothing, and a second run after a fully successful first run over
`demoState` does nothing. -/
theorem sync_idempotent_when_no_eligible_witness :
    runSync 10 true (fun _ => noFaults) 0 ⟨[], [], []⟩ = (emptyStats, ⟨[], [], []⟩) ∧
    runSync 10 false (fun _ => noFaults) 7
        (runSync 10 false (fun _ => noFaults) 5 demoState).2
      = (emptyStats, (runSync 10 false (fun _ => noFaults) 5 demoState).2) :=
  ⟨(sync_idempotent_when_no_eligible 10 10 true (fun _ => noFaults) (fun _ => noFaults)
      0 0 ⟨[], [], []⟩).1 rfl,
   (sync_idempotent_when_no_eligible 10 10 false (fun _ => noFaults) (fun _ => noFaults)
      5 7 demoState).2 (by decide)⟩

end CloudStore
